import Mathlib

/-!
Shallow embedding of the bet-logging bot (`src/bot.py`): the value parsers
(`parse_money`, `parse_odds_to_decimal`, `parse_datetime_london`), the
bet-line resolver (`process_bet_line`), the settlement calculator
(`settle_bet`), row creation (`append_bet_row`) and the summary
aggregator (`build_summary`).  Python strings are modelled as `List Char`
with `String` wrappers; Python floats as `ℚ`; a raised exception as
`Except.error` carrying the message.
-/

deriving instance DecidableEq for Except

namespace BetBot

/-- ASCII whitespace stripped by Python `str.strip()` (the no-break space,
the one non-ASCII space occurring in the modelled inputs, is replaced by
`parse_money` before stripping). -/
def isPySpace (c : Char) : Bool :=
  c = ' ' || c = '\t' || c = '\n' || c = '\r' || c = '\x0b' || c = '\x0c'

/-- Python `str.strip()`: drop leading and trailing whitespace. -/
def pyStrip (l : List Char) : List Char :=
  ((l.dropWhile isPySpace).reverse.dropWhile isPySpace).reverse

/-- Python `str.split(sep)` for a one-character separator, keeping empty
segments (so splitting the empty string yields one empty segment). -/
def splitCh (c : Char) : List Char → List (List Char)
  | [] => [[]]
  | x :: xs =>
    if x = c then [] :: splitCh c xs
    else
      match splitCh c xs with
      | [] => [[x]]
      | y :: ys => (x :: y) :: ys

/-- Helper for `removeSub`, structurally recursive on a fuel argument
(one unit of fuel is spent per character or match consumed, so fuel equal
to the input length always suffices). -/
def removeSubAux (pat : List Char) : ℕ → List Char → List Char
  | 0, l => l
  | _ + 1, [] => []
  | fuel + 1, x :: xs =>
    if pat.isPrefixOf (x :: xs) ∧ pat ≠ [] then
      removeSubAux pat fuel (xs.drop (pat.length - 1))
    else
      x :: removeSubAux pat fuel xs

/-- Python `str.replace(pat, "")` for a non-empty pattern: remove every
left-to-right, non-overlapping occurrence of `pat`. -/
def removeSub (pat : List Char) (l : List Char) : List Char :=
  removeSubAux pat l.length l

/-- Numeric value of a digit character. -/
def digitVal (c : Char) : ℕ := c.toNat - 48

/-- Value of a digit string read left to right, base 10. -/
def natOfDigits (l : List Char) : ℕ :=
  l.foldl (fun acc c => 10 * acc + digitVal c) 0

/-- The shape of a plain decimal float literal accepted by Python
`float(s)`: sign, integer-part value, fraction-digits value, number of
fraction digits. -/
structure FloatLit where
  neg : Bool
  ip : ℕ
  fr : ℕ
  frLen : ℕ
deriving DecidableEq

/-- Rational value denoted by a float literal. -/
def litVal (f : FloatLit) : ℚ :=
  (if f.neg then -1 else 1) * ((f.ip : ℚ) + (f.fr : ℚ) / (10 : ℚ) ^ f.frLen)

/-- Digits-and-dot body of a float literal after the sign: an integer
digit run, optionally followed by a dot and a fraction digit run, with at
least one digit overall. -/
def pyFloatCore (neg : Bool) (t2 : List Char) : Option FloatLit :=
  if t2.dropWhile Char.isDigit = [] then
    if t2.takeWhile Char.isDigit = [] then none
    else some ⟨neg, natOfDigits (t2.takeWhile Char.isDigit), 0, 0⟩
  else if (t2.dropWhile Char.isDigit).head? = some '.' then
    if (t2.dropWhile Char.isDigit).tail.all Char.isDigit ∧
        (t2.takeWhile Char.isDigit ≠ [] ∨ (t2.dropWhile Char.isDigit).tail ≠ []) then
      some ⟨neg, natOfDigits (t2.takeWhile Char.isDigit),
            natOfDigits (t2.dropWhile Char.isDigit).tail,
            (t2.dropWhile Char.isDigit).tail.length⟩
    else none
  else none

/-- Grammar of Python `float(s)` on plain decimal literals
(`[sign] digits [. digits]` with surrounding whitespace, at least one
digit overall); scientific notation, `inf` and `nan` do not occur in the
inputs modelled here and are treated as a parse failure.  `none` models a
raised `ValueError`. -/
def pyFloatLit (s : List Char) : Option FloatLit :=
  if (pyStrip s).head? = some '-' then pyFloatCore true (pyStrip s).tail
  else if (pyStrip s).head? = some '+' then pyFloatCore false (pyStrip s).tail
  else pyFloatCore false (pyStrip s)

/-- Model of Python `float(s)`: the rational value of the parsed literal. -/
def pyFloat (s : List Char) : Option ℚ :=
  (pyFloatLit s).map litVal

/-- The no-break space replaced by `parse_money`. -/
def nbsp : Char := ' '

/-- The currency sequence removed by `parse_money`; the source literal is
the two characters U+00AC U+00A3 (a mojibake rendering of the pound sign
baked into `bot.py` line 69). -/
def currencyLit : List Char := ['¬', '£']

/-- First stage of `parse_money`: replace no-break spaces by plain
spaces, then strip. -/
def moneyClean (x : String) : List Char :=
  pyStrip ((x.toList).map (fun c => if c = nbsp then ' ' else c))

/-- The multi-dot collapse of `parse_money`: when splitting on `.` leaves
more than two parts, join all but the last into the integer part. -/
def moneyDots (l : List Char) : List Char :=
  if (splitCh '.' l).length ≤ 2 then l
  else (splitCh '.' l).dropLast.flatten ++ '.' :: ((splitCh '.' l).getLast?.getD [])

/-- The cleaned numeric text `parse_money` hands to `float`: thousands
separators and the currency sequence removed, multiple dots collapsed. -/
def moneyNorm (x : String) : List Char :=
  moneyDots (removeSub currencyLit ((moneyClean x).filter (fun c => c ≠ ',')))

/-- The `_NUM_RE` fallback of `parse_money`: keep only digits, `.`
and `-`. -/
def moneyFallback (x : String) : List Char :=
  (moneyNorm x).filter (fun c => c.isDigit || c = '.' || c = '-')

/-- `parse_money` (`bot.py` lines 64-76) on a string cell: replace
no-break spaces, strip; empty gives `0`; remove thousands separators and
the currency sequence; collapse all but the last `.`-separated part into
the integer part when more than one dot remains; parse as a float, and on
failure retry on the string with every character other than digits, `.`
and `-` removed (the `_NUM_RE` fallback), an empty remainder giving `0`.
`Except.error` models an uncaught `ValueError`.  The `None` and numeric
input branches of the Python function are not modelled: sheet cells and
message fields arrive as strings. -/
def parse_money (x : String) : Except String ℚ :=
  if moneyClean x = [] then Except.ok 0
  else
    match pyFloat (moneyNorm x) with
    | some q => Except.ok q
    | none =>
      if moneyFallback x = [] then Except.ok 0
      else
        match pyFloat (moneyFallback x) with
        | some q => Except.ok q
        | none =>
          Except.error ("could not convert string to float: " ++
            String.mk (moneyFallback x))

/-- `parse_odds_to_decimal` (`bot.py` lines 78-94): if the stripped input
contains `/`, split once at the first `/`, parse both sides as floats and
return `1 + a/b`, any failure (unparseable side, zero denominator, result
not above `1`) raising `Bad fractional odds`; otherwise normalize a
decimal comma to a dot, parse as a float and require the result to be
strictly greater than `1`. -/
def parse_odds_to_decimal (s : String) : Except String ℚ :=
  let raw := pyStrip s.toList
  if raw.contains '/' then
    match splitCh '/' raw with
    | [] => Except.error ("Bad fractional odds: " ++ s)
    | a :: rest =>
      let b := List.intercalate ['/'] rest
      match pyFloat (pyStrip a), pyFloat (pyStrip b) with
      | some qa, some qb =>
        if qb = 0 then Except.error ("Bad fractional odds: " ++ s)
        else
          let dec := 1 + qa / qb
          if dec ≤ 1 then Except.error ("Bad fractional odds: " ++ s)
          else Except.ok dec
      | _, _ => Except.error ("Bad fractional odds: " ++ s)
  else
    let raw2 := raw.map (fun c => if c = ',' then '.' else c)
    match pyFloat raw2 with
    | some q =>
      if q ≤ 1 then Except.error ("Bad decimal odds: " ++ s) else Except.ok q
    | none => Except.error ("Bad decimal odds: " ++ s)

/-- Python `str.capitalize()` (ASCII): first character upper-cased, the
rest lower-cased. -/
def pyCapitalize (s : String) : String :=
  match s.toList with
  | [] => ""
  | c :: r => String.mk (c.toUpper :: r.map Char.toLower)

/-- The dictionary `settle_bet` returns (row index elided). -/
structure SettleResult where
  status : String
  ret : ℚ
  profit : ℚ
  stake : ℚ
  odds : ℚ
deriving DecidableEq

/-- The odds value settlement computes with: the `parse_money` reading of
the odds cell, except that a value not above `1` is retried with
`parse_odds_to_decimal`, keeping the first value when the retry also
fails. -/
def settleOdds (oddsCell : String) (odds0 : ℚ) : ℚ :=
  if odds0 ≤ 1 then
    match parse_odds_to_decimal oddsCell with
    | Except.ok d => d
    | Except.error _ => odds0
  else odds0

/-- `settle_bet` (`bot.py` lines 191-225): normalize the outcome tag with
`capitalize` and reject anything but `Win`, `Void`, `Loss`; read odds
(column F) and stake (column H) with `parse_money`; the odds value used is
`settleOdds` of the raw cell; then `Win` gives `return = odds × stake`,
`profit = return − stake`; `Void` gives `return = stake`, `profit = 0`;
`Loss` gives `return = 0`, `profit = −stake`.  The sheet row lookup and
the write of status/return/profit back to columns I-K are elided: the
function takes the two cell contents as `row_values` returns them and
yields the values written. -/
def settle_bet (oddsCell stakeCell : String) (statusIn : String) :
    Except String SettleResult :=
  if pyCapitalize statusIn = "Win" ∨ pyCapitalize statusIn = "Void" ∨
      pyCapitalize statusIn = "Loss" then
    match parse_money oddsCell with
    | Except.error e => Except.error e
    | Except.ok odds0 =>
      match parse_money stakeCell with
      | Except.error e => Except.error e
      | Except.ok stake =>
        if pyCapitalize statusIn = "Win" then
          Except.ok ⟨pyCapitalize statusIn, settleOdds oddsCell odds0 * stake,
                     settleOdds oddsCell odds0 * stake - stake, stake,
                     settleOdds oddsCell odds0⟩
        else if pyCapitalize statusIn = "Void" then
          Except.ok ⟨pyCapitalize statusIn, stake, 0, stake,
                     settleOdds oddsCell odds0⟩
        else
          Except.ok ⟨pyCapitalize statusIn, 0, -stake, stake,
                     settleOdds oddsCell odds0⟩
  else Except.error ("Status must be Win, Void or Loss")

/-- `process_bet_line` (`bot.py` lines 308-318): split the line on `/`,
strip each segment, drop empty segments, require exactly five fields
`Tipster / Selection / Odds / Bookmaker / Stake`; parse the odds and the
stake, requiring the stake to be strictly positive.  The append to the
sheet and the generated identifier are elided; the returned tuple
`(tipster, selection, oddsDec, bookmaker, stake)` is the data the caller
receives. -/
def process_bet_line (line : String) :
    Except String (String × String × ℚ × String × ℚ) :=
  let parts := ((splitCh '/' line.toList).map pyStrip).filter (fun p => p ≠ [])
  match parts with
  | [tipster, selection, oddsRaw, bookmaker, stakeRaw] =>
    match parse_odds_to_decimal (String.mk oddsRaw) with
    | Except.error e => Except.error e
    | Except.ok oddsDec =>
      match parse_money (String.mk stakeRaw) with
      | Except.error e => Except.error e
      | Except.ok stake =>
        if stake ≤ 0 then Except.error ("Stake must be greater than 0")
        else Except.ok (String.mk tipster, String.mk selection, oddsDec,
                        String.mk bookmaker, stake)
  | _ => Except.error ("Please send: Tipster / Selection / Odds / Bookmaker / Stake")

/-- The character of a decimal digit (values above nine clamp to `9`;
they never arise). -/
def digitChar (d : ℕ) : Char :=
  if d = 0 then '0' else if d = 1 then '1' else if d = 2 then '2'
  else if d = 3 then '3' else if d = 4 then '4' else if d = 5 then '5'
  else if d = 6 then '6' else if d = 7 then '7' else if d = 8 then '8' else '9'

/-- Decimal rendering of a natural number, structurally recursive on a
fuel argument (one digit per unit of fuel, so `n + 1` always suffices). -/
def renderNatAux : ℕ → ℕ → List Char
  | 0, _ => []
  | fuel + 1, n =>
    if n < 10 then [digitChar n]
    else renderNatAux fuel (n / 10) ++ [digitChar (n % 10)]

/-- Decimal rendering of a natural number. -/
def renderNat (n : ℕ) : List Char := renderNatAux (n + 1) n

/-- Round half to even, the rounding Python applies when formatting a
value to a fixed number of decimals (idealized over exact rationals). -/
def rhe (q : ℚ) : ℤ :=
  if q - ⌊q⌋ < 1/2 then ⌊q⌋
  else if 1/2 < q - ⌊q⌋ then ⌊q⌋ + 1
  else if ⌊q⌋ % 2 = 0 then ⌊q⌋ else ⌊q⌋ + 1

/-- Python `f"{x:.2f}"` for non-negative `x`: the value rounded half-even
to two decimals, rendered with the integer digits, a dot, and exactly two
fraction digits. -/
def fmt2 (q : ℚ) : List Char :=
  renderNat ((rhe (q * 100)).toNat / 100) ++
    '.' :: [digitChar ((rhe (q * 100)).toNat / 10 % 10),
            digitChar ((rhe (q * 100)).toNat % 10)]

/-- A spreadsheet cell as appended: a string or a number. -/
inductive Cell where
  | str : String → Cell
  | num : ℚ → Cell
deriving DecidableEq

/-- `append_bet_row` (`bot.py` lines 154-172): the row appended for a new
bet.  The generated identifier and the creation timestamp come from the
environment (`gen_id`, `now_london_with_seconds`) and are parameters;
`event_dt` is `None` on every call path of this revision, giving an empty
event-date cell.  Columns: A id, B date placed, C event date, D tipster,
E selection, F odds formatted `.2f`, G bookmaker, H stake, I status
`Pending`, J return, K profit, L cumulative profit. -/
def append_bet_row (betId datePlaced : String) (tipster selection : String)
    (oddsDec : ℚ) (bookmaker : String) (stake : ℚ) (eventDate : Option String) :
    List Cell :=
  [Cell.str betId, Cell.str datePlaced, Cell.str (eventDate.getD ("")),
   Cell.str tipster, Cell.str selection, Cell.str (String.mk (fmt2 oddsDec)),
   Cell.str bookmaker, Cell.num stake, Cell.str ("Pending"),
   Cell.str (""), Cell.str (""), Cell.str ("")]

/-- A Python `datetime`: calendar fields plus optional timezone info. -/
structure PyDatetime where
  year : ℤ
  month : ℤ
  day : ℤ
  hour : ℤ
  minute : ℤ
  second : ℤ
  tzinfo : Option String
deriving DecidableEq

/-- The reference timezone of the bot. -/
def londonTZ : String := "Europe/London"

/-- `TZ.localize` on a naive datetime: attach the reference zone (the
default `is_dst=False` resolution never raises). -/
def tzLocalize (d : PyDatetime) : PyDatetime := { d with tzinfo := some londonTZ }

/-- The ordered `strptime` format list of `parse_datetime_london`. -/
def strptimeFormats : List String :=
  ["%Y-%m-%d %H:%M:%S", "%Y-%m-%d %H:%M",
   "%d/%m/%Y %H:%M:%S", "%d/%m/%Y %H:%M",
   "%d-%m-%Y %H:%M:%S", "%d-%m-%Y %H:%M",
   "%Y-%m-%d", "%d/%m/%Y", "%d-%m-%Y"]

/-- `parse_datetime_london` (`bot.py` lines 96-112) on string input.  The
two external parsers are parameters constrained only by their exception
contracts: `strptime s fmt` either returns a datetime or raises
`ValueError` (the only exception the per-format `try` catches), modelled
as `Option`; `dtparse` (`dateutil.parser.parse` with `dayfirst=True`)
either returns a datetime or raises, modelled as `Except` whose error the
enclosing `try` turns into a `None` result; `astimezoneLondon` converts an
already-zoned datetime to the reference timezone.  The
`isinstance(s, datetime)` branch is not modelled: the inputs here are
strings. -/
def parse_datetime_london (strptime : String → String → Option PyDatetime)
    (dtparse : String → Except String PyDatetime)
    (astimezoneLondon : PyDatetime → PyDatetime)
    (s : String) : Except String (Option PyDatetime) :=
  let s1 := String.mk (pyStrip s.toList)
  match strptimeFormats.findSome? (fun fmt => strptime s1 fmt) with
  | some dt =>
    Except.ok (some (if dt.tzinfo = none then tzLocalize dt else astimezoneLondon dt))
  | none =>
    match dtparse s1 with
    | Except.error _ => Except.ok none
    | Except.ok dt =>
      Except.ok (some (if dt.tzinfo = none then tzLocalize dt else astimezoneLondon dt))

/-- One coerced row of the bets dataframe as `build_summary` consumes it:
`Date Placed` already parsed (modelled as an integer timestamp, only its
ordering matters), `Stake`/`Return`/`Profit` already coerced by
`parse_money` in `load_bets_df`, `Status` and `Tipster` raw strings. -/
structure BetRow where
  datePlaced : ℤ
  tipster : String
  stake : ℚ
  ret : ℚ
  profit : ℚ
  status : String
deriving DecidableEq

/-- Per-tipster summary record as built by `build_summary`. -/
structure TipsterSummary where
  tipster : String
  bets : ℕ
  wins : ℕ
  staked : ℚ
  returned : ℚ
  profit : ℚ
  winPct : ℚ
  pending : ℕ
deriving DecidableEq

/-- Overall summary record as built by `build_summary`. -/
structure OverallSummary where
  bets : ℕ
  wins : ℕ
  staked : ℚ
  returned : ℚ
  profit : ℚ
  winPct : ℚ
  pending : ℕ
deriving DecidableEq

/-- Lexicographic comparison of character lists by code point — the
ordering Python and pandas use on strings. -/
def charListLt : List Char → List Char → Bool
  | [], [] => false
  | [], _ :: _ => true
  | _ :: _, [] => false
  | a :: as, b :: bs =>
    if a < b then true else if b < a then false else charListLt as bs

/-- Lexicographic comparison of strings by code point. -/
def strLt (a b : String) : Bool := charListLt a.toList b.toList

/-- Insert into a string list sorted ascending, before the first element
not smaller. -/
def insertStrAsc (x : String) : List String → List String
  | [] => [x]
  | y :: ys => if strLt y x then y :: insertStrAsc x ys else x :: y :: ys

/-- Ascending sort of the group keys: `pandas.groupby` yields groups in
sorted key order. -/
def sortStrAsc : List String → List String
  | [] => []
  | x :: xs => insertStrAsc x (sortStrAsc xs)

/-- Stable insertion, descending by profit: an element is placed before
the first element whose profit is not greater, so earlier elements keep
their place among equal profits — the order
`records.sort(key=..., reverse=True)` produces. -/
def insertByProfitDesc (x : TipsterSummary) :
    List TipsterSummary → List TipsterSummary
  | [] => [x]
  | y :: ys => if x.profit < y.profit then y :: insertByProfitDesc x ys
               else x :: y :: ys

/-- Stable sort of the summary records by profit descending. -/
def sortByProfitDesc : List TipsterSummary → List TipsterSummary
  | [] => []
  | x :: xs => insertByProfitDesc x (sortByProfitDesc xs)

/-- The placeholder shown for an empty tipster label; the source literal
is the three characters U+201A U+00C4 U+00EE (a mojibake rendering of an
em-dash baked into `bot.py` line 255). -/
def emptyTipsterLabel : String := "‚Äî"

/-- The rows whose `Date Placed` falls in the half-open summary window. -/
def summaryWindow (df : List BetRow) (startLon endLon : ℤ) : List BetRow :=
  df.filter (fun r =>
    decide (startLon ≤ r.datePlaced) && decide (r.datePlaced < endLon))

/-- The settled partition of the windowed rows: status `Win`, `Void` or
`Loss` (any other status is in neither partition). -/
def summarySettled (df : List BetRow) (startLon endLon : ℤ) : List BetRow :=
  (summaryWindow df startLon endLon).filter (fun r =>
    r.status == "Win" || r.status == "Void" || r.status == "Loss")

/-- The pending partition of the windowed rows: status exactly
`Pending`. -/
def summaryPending (df : List BetRow) (startLon endLon : ℤ) : List BetRow :=
  (summaryWindow df startLon endLon).filter (fun r => r.status == "Pending")

/-- One tipster's group of settled rows. -/
def summaryGroup (df : List BetRow) (startLon endLon : ℤ) (tip : String) :
    List BetRow :=
  (summarySettled df startLon endLon).filter (fun r => r.tipster == tip)

/-- The group keys in ascending order, as `pandas.groupby` yields
groups. -/
def summaryKeys (df : List BetRow) (startLon endLon : ℤ) : List String :=
  sortStrAsc (((summarySettled df startLon endLon).map (fun r => r.tipster)).eraseDups)

/-- The record `build_summary` emits for one tipster group: bets, wins,
staked, returned (`return` on a win, the stake on a void, else `0`),
profit (`0` on a void, else the stored profit), win rate, and the
tipster's pending count. -/
def mkTipsterSummary (df : List BetRow) (startLon endLon : ℤ) (tip : String) :
    TipsterSummary :=
  { tipster := if tip = "" then emptyTipsterLabel else tip
    bets := (summaryGroup df startLon endLon tip).length
    wins := ((summaryGroup df startLon endLon tip).filter
      (fun r => r.status == "Win")).length
    staked := ((summaryGroup df startLon endLon tip).map (fun r => r.stake)).sum
    returned := ((summaryGroup df startLon endLon tip).map (fun r =>
      if r.status = "Win" then r.ret
      else if r.status = "Void" then r.stake else 0)).sum
    profit := ((summaryGroup df startLon endLon tip).map (fun r =>
      if r.status = "Void" then (0 : ℚ) else r.profit)).sum
    winPct := if (summaryGroup df startLon endLon tip).length = 0 then 0
      else (((summaryGroup df startLon endLon tip).filter
          (fun r => r.status == "Win")).length : ℚ) /
        ((summaryGroup df startLon endLon tip).length : ℚ)
    pending := ((summaryPending df startLon endLon).filter
      (fun r => r.tipster == tip)).length }

/-- The per-tipster records, one per group key, sorted by profit
descending (stable). -/
def summaryRecords (df : List BetRow) (startLon endLon : ℤ) :
    List TipsterSummary :=
  sortByProfitDesc ((summaryKeys df startLon endLon).map
    (mkTipsterSummary df startLon endLon))

/-- `build_summary` (`bot.py` lines 246-274): filter to the half-open
window on `Date Placed`; partition into settled and pending; group the
settled rows by tipster, one `mkTipsterSummary` record per group; sort by
profit descending; total the records into the overall row, whose pending
count is the size of the whole pending partition. -/
def build_summary (df : List BetRow) (startLon endLon : ℤ) :
    OverallSummary × List TipsterSummary :=
  ({ bets := if summaryRecords df startLon endLon = [] then 0
       else ((summaryRecords df startLon endLon).map (fun r => r.bets)).sum
     wins := if summaryRecords df startLon endLon = [] then 0
       else ((summaryRecords df startLon endLon).map (fun r => r.wins)).sum
     staked := if summaryRecords df startLon endLon = [] then 0
       else ((summaryRecords df startLon endLon).map (fun r => r.staked)).sum
     returned := if summaryRecords df startLon endLon = [] then 0
       else ((summaryRecords df startLon endLon).map (fun r => r.returned)).sum
     profit := if summaryRecords df startLon endLon = [] then 0
       else ((summaryRecords df startLon endLon).map (fun r => r.profit)).sum
     winPct := if summaryRecords df startLon endLon = [] then 0
       else ((((summaryRecords df startLon endLon).map (fun r => r.wins)).sum : ℕ) : ℚ) /
         ((max 1 ((summaryRecords df startLon endLon).map (fun r => r.bets)).sum : ℕ) : ℚ)
     pending := (summaryPending df startLon endLon).length },
   summaryRecords df startLon endLon)

/-! ### Supporting lemmas -/

theorem digitChar_isDigit (d : ℕ) : (digitChar d).isDigit = true := by
  unfold digitChar
  repeat' split
  all_goals decide

theorem digitChar_not_space (d : ℕ) : isPySpace (digitChar d) = false := by
  unfold digitChar
  repeat' split
  all_goals decide

theorem digitVal_digitChar : ∀ d : ℕ, d < 10 → digitVal (digitChar d) = d := by
  decide

theorem isDigit_ne {c x : Char} (h : c.isDigit = true) (hx : x.isDigit = false) :
    c ≠ x := by
  intro he
  rw [he, hx] at h
  exact Bool.false_ne_true h

theorem dropWhile_eq_self_of {α : Type} {p : α → Bool} {l : List α}
    (h : ∀ x ∈ l, p x = false) : l.dropWhile p = l := by
  cases l with
  | nil => rfl
  | cons x xs =>
    rw [List.dropWhile_cons_of_neg]
    simp [h x (by simp)]

theorem pyStrip_eq_self {l : List Char} (h : ∀ x ∈ l, isPySpace x = false) :
    pyStrip l = l := by
  unfold pyStrip
  rw [dropWhile_eq_self_of h,
      dropWhile_eq_self_of (fun x hx => h x (List.mem_reverse.mp hx)),
      List.reverse_reverse]

theorem splitCh_cons (c x : Char) (xs : List Char) :
    splitCh c (x :: xs) =
      if x = c then [] :: splitCh c xs
      else
        match splitCh c xs with
        | [] => [[x]]
        | y :: ys => (x :: y) :: ys := rfl

theorem splitCh_ne_nil (c : Char) (l : List Char) : splitCh c l ≠ [] := by
  induction l with
  | nil => simp [splitCh]
  | cons x xs ih =>
    rw [splitCh_cons]
    by_cases hx : x = c
    · simp [hx]
    · rw [if_neg hx]
      cases hs : splitCh c xs with
      | nil => simp
      | cons y ys => simp

theorem splitCh_of_not_mem {c : Char} {l : List Char} (h : c ∉ l) :
    splitCh c l = [l] := by
  induction l with
  | nil => rfl
  | cons x xs ih =>
    have hx : x ≠ c := fun he => h (by rw [← he]; exact List.mem_cons_self x xs)
    have hxs : c ∉ xs := fun hm => h (List.mem_cons_of_mem x hm)
    rw [splitCh_cons, if_neg hx, ih hxs]

theorem splitCh_append {c : Char} {xs ys : List Char} (h : c ∉ xs) :
    splitCh c (xs ++ c :: ys) = xs :: splitCh c ys := by
  induction xs with
  | nil =>
    simp only [List.nil_append]
    rw [splitCh_cons, if_pos rfl]
  | cons a as ih =>
    have ha : a ≠ c := fun he => h (by rw [← he]; exact List.mem_cons_self a as)
    have has : c ∉ as := fun hm => h (List.mem_cons_of_mem a hm)
    simp only [List.cons_append]
    rw [splitCh_cons, if_neg ha, ih has]

theorem natOfDigits_append_singleton (xs : List Char) (c : Char) :
    natOfDigits (xs ++ [c]) = 10 * natOfDigits xs + digitVal c := by
  simp [natOfDigits, List.foldl_append]

theorem takeWhile_all_append {α : Type} {p : α → Bool} {xs : List α} {y : α}
    (ys : List α) (h : ∀ x ∈ xs, p x = true) (hy : p y = false) :
    (xs ++ y :: ys).takeWhile p = xs ∧ (xs ++ y :: ys).dropWhile p = y :: ys := by
  induction xs with
  | nil =>
    simp only [List.nil_append]
    constructor
    · rw [List.takeWhile_cons_of_neg (by simp [hy])]
    · rw [List.dropWhile_cons_of_neg (by simp [hy])]
  | cons a as ih =>
    have ha : p a = true := h a (by simp)
    have ih' := ih (fun x hx => h x (List.mem_cons_of_mem a hx))
    simp only [List.cons_append]
    constructor
    · rw [List.takeWhile_cons_of_pos ha, ih'.1]
    · rw [List.dropWhile_cons_of_pos ha, ih'.2]

theorem isDigit_not_space {c : Char} (h : c.isDigit = true) : isPySpace c = false := by
  by_contra hcon
  have ht : isPySpace c = true := by
    revert hcon
    cases isPySpace c <;> simp
  unfold isPySpace at ht
  simp only [Bool.or_eq_true, decide_eq_true_eq] at ht
  rcases ht with ((((h1 | h2) | h3) | h4) | h5) | h6 <;>
    subst_vars <;> exact absurd h (by decide)

theorem pyFloatCore_digits {l : List Char} (hne : l ≠ []) (hd : l.all Char.isDigit) :
    pyFloatCore false l = some ⟨false, natOfDigits l, 0, 0⟩ := by
  have hall : ∀ x ∈ l, Char.isDigit x = true := List.all_eq_true.mp hd
  have htake : l.takeWhile Char.isDigit = l := List.takeWhile_eq_self_iff.mpr hall
  have hdrop : l.dropWhile Char.isDigit = [] := List.dropWhile_eq_nil_iff.mpr hall
  unfold pyFloatCore
  rw [hdrop, if_pos rfl, htake, if_neg hne]

theorem pyFloatLit_digits {l : List Char} (hne : l ≠ []) (hd : l.all Char.isDigit) :
    pyFloatLit l = some ⟨false, natOfDigits l, 0, 0⟩ := by
  have hall : ∀ x ∈ l, Char.isDigit x = true := List.all_eq_true.mp hd
  have hstrip : pyStrip l = l :=
    pyStrip_eq_self (fun x hx => isDigit_not_space (hall x hx))
  obtain ⟨c, l', rfl⟩ := List.exists_cons_of_ne_nil hne
  have hc : c.isDigit = true := hall c (by simp)
  have hminus : c ≠ '-' := isDigit_ne hc (by decide)
  have hplus : c ≠ '+' := isDigit_ne hc (by decide)
  unfold pyFloatLit
  rw [hstrip, List.head?_cons,
      if_neg (by simp [hminus]), if_neg (by simp [hplus])]
  exact pyFloatCore_digits hne hd

theorem pyFloatCore_digit_frac {ip fr : List Char} (hne : ip ≠ [])
    (hip : ip.all Char.isDigit) (hfr : fr.all Char.isDigit) :
    pyFloatCore false (ip ++ '.' :: fr) =
      some ⟨false, natOfDigits ip, natOfDigits fr, fr.length⟩ := by
  have hallip : ∀ x ∈ ip, Char.isDigit x = true := List.all_eq_true.mp hip
  obtain ⟨htake, hdrop⟩ :=
    takeWhile_all_append fr hallip (by decide : Char.isDigit '.' = false)
  unfold pyFloatCore
  rw [hdrop, htake, if_neg (by simp), List.head?_cons, if_pos rfl, List.tail_cons,
      if_pos ⟨hfr, Or.inl hne⟩]

theorem pyFloatLit_digit_frac {ip fr : List Char} (hne : ip ≠ [])
    (hip : ip.all Char.isDigit) (hfr : fr.all Char.isDigit) :
    pyFloatLit (ip ++ '.' :: fr) =
      some ⟨false, natOfDigits ip, natOfDigits fr, fr.length⟩ := by
  have hallip : ∀ x ∈ ip, Char.isDigit x = true := List.all_eq_true.mp hip
  have hallfr : ∀ x ∈ fr, Char.isDigit x = true := List.all_eq_true.mp hfr
  have hstrip : pyStrip (ip ++ '.' :: fr) = ip ++ '.' :: fr := by
    apply pyStrip_eq_self
    intro x hx
    rcases List.mem_append.mp hx with hx | hx
    · exact isDigit_not_space (hallip x hx)
    · rcases List.mem_cons.mp hx with rfl | hx
      · decide
      · exact isDigit_not_space (hallfr x hx)
  obtain ⟨c, ip', rfl⟩ := List.exists_cons_of_ne_nil hne
  have hc : c.isDigit = true := hallip c (by simp)
  have hminus : c ≠ '-' := isDigit_ne hc (by decide)
  have hplus : c ≠ '+' := isDigit_ne hc (by decide)
  unfold pyFloatLit
  rw [hstrip, List.cons_append, List.head?_cons,
      if_neg (by simp [hminus]), if_neg (by simp [hplus]), ← List.cons_append]
  exact pyFloatCore_digit_frac hne hip hfr

theorem natOfDigits_renderNatAux :
    ∀ fuel n : ℕ, n < 10 ^ fuel → natOfDigits (renderNatAux fuel n) = n := by
  intro fuel
  induction fuel with
  | zero =>
    intro n h
    interval_cases n
    rfl
  | succ f ih =>
    intro n h
    unfold renderNatAux
    by_cases h10 : n < 10
    · rw [if_pos h10]
      show natOfDigits [digitChar n] = n
      have : natOfDigits [digitChar n] = digitVal (digitChar n) := by
        simp [natOfDigits]
      rw [this, digitVal_digitChar n h10]
    · rw [if_neg h10]
      rw [natOfDigits_append_singleton]
      have hdiv : n / 10 < 10 ^ f := by
        rw [Nat.div_lt_iff_lt_mul (by norm_num)]
        calc n < 10 ^ (f + 1) := h
        _ = 10 ^ f * 10 := by ring
      rw [ih (n / 10) hdiv, digitVal_digitChar (n % 10) (Nat.mod_lt n (by norm_num))]
      omega

theorem natOfDigits_renderNat (n : ℕ) : natOfDigits (renderNat n) = n := by
  apply natOfDigits_renderNatAux
  calc n < 10 ^ n := Nat.lt_pow_self (by norm_num) n
  _ ≤ 10 ^ (n + 1) := Nat.pow_le_pow_right (by norm_num) (Nat.le_succ n)

theorem renderNatAux_all_digit (fuel n : ℕ) :
    (renderNatAux fuel n).all Char.isDigit = true := by
  induction fuel generalizing n with
  | zero => rfl
  | succ f ih =>
    unfold renderNatAux
    by_cases h10 : n < 10
    · rw [if_pos h10]
      simp [digitChar_isDigit]
    · rw [if_neg h10]
      simp [List.all_append, ih (n / 10), digitChar_isDigit]

theorem renderNat_all_digit (n : ℕ) : (renderNat n).all Char.isDigit = true :=
  renderNatAux_all_digit (n + 1) n

theorem renderNat_ne_nil (n : ℕ) : renderNat n ≠ [] := by
  unfold renderNat renderNatAux
  by_cases h10 : n < 10
  · rw [if_pos h10]
    simp
  · rw [if_neg h10]
    simp

theorem removeSubAux_of_not_mem {p : Char} {ps l : List Char}
    (h : ∀ x ∈ l, x ≠ p) : ∀ fuel, removeSubAux (p :: ps) fuel l = l := by
  induction l with
  | nil => intro fuel; cases fuel <;> rfl
  | cons x xs ih =>
    intro fuel
    cases fuel with
    | zero => rfl
    | succ f =>
      have hx : x ≠ p := h x (by simp)
      have hpre : (p :: ps).isPrefixOf (x :: xs) = false := by
        simp [List.isPrefixOf]
        intro he
        exact absurd he.symm hx
      unfold removeSubAux
      rw [if_neg (by simp [hpre])]
      rw [ih (fun y hy => h y (List.mem_cons_of_mem x hy)) f]

theorem removeSub_of_not_mem {p : Char} {ps l : List Char}
    (h : ∀ x ∈ l, x ≠ p) : removeSub (p :: ps) l = l :=
  removeSubAux_of_not_mem h l.length

theorem toList_mk (l : List Char) : (String.mk l).toList = l := rfl

theorem contains_of_mem {c : Char} {l : List Char} (h : c ∈ l) :
    l.contains c = true := by
  simp [List.contains, List.elem_eq_mem, h]

theorem contains_eq_false_of_not_mem {c : Char} {l : List Char} (h : c ∉ l) :
    l.contains c = false := by
  simp [List.contains, List.elem_eq_mem, h]

theorem litVal_nat (n : ℕ) : litVal ⟨false, n, 0, 0⟩ = (n : ℚ) := by
  simp [litVal]

theorem litVal_frac (a f len : ℕ) :
    litVal ⟨false, a, f, len⟩ = (a : ℚ) + (f : ℚ) / (10 : ℚ) ^ len := by
  simp [litVal]

theorem intercalate_single (sep : List Char) (l : List Char) :
    List.intercalate sep [l] = l := by
  simp [List.intercalate]

theorem parse_odds_fractional_trace {das dbs : List Char} (hna : das ≠ [])
    (hnb : dbs ≠ []) (hda : das.all Char.isDigit = true)
    (hdb : dbs.all Char.isDigit = true) :
    parse_odds_to_decimal (String.mk (das ++ '/' :: dbs)) =
      if (natOfDigits dbs : ℚ) = 0 then
        Except.error ("Bad fractional odds: " ++ String.mk (das ++ '/' :: dbs))
      else if 1 + (natOfDigits das : ℚ) / (natOfDigits dbs : ℚ) ≤ 1 then
        Except.error ("Bad fractional odds: " ++ String.mk (das ++ '/' :: dbs))
      else Except.ok (1 + (natOfDigits das : ℚ) / (natOfDigits dbs : ℚ)) := by
  have hallda := List.all_eq_true.mp hda
  have halldb := List.all_eq_true.mp hdb
  have hmema : '/' ∉ das := fun hm => absurd (hallda _ hm) (by decide)
  have hmemb : '/' ∉ dbs := fun hm => absurd (halldb _ hm) (by decide)
  have hstrip : pyStrip (das ++ '/' :: dbs) = das ++ '/' :: dbs := by
    apply pyStrip_eq_self
    intro x hx
    rcases List.mem_append.mp hx with hx | hx
    · exact isDigit_not_space (hallda x hx)
    · rcases List.mem_cons.mp hx with rfl | hx
      · decide
      · exact isDigit_not_space (halldb x hx)
  have hcont : (das ++ '/' :: dbs).contains '/' = true :=
    contains_of_mem (by simp)
  have hsplit : splitCh '/' (das ++ '/' :: dbs) = das :: [dbs] := by
    rw [splitCh_append hmema, splitCh_of_not_mem hmemb]
  have hstra : pyStrip das = das :=
    pyStrip_eq_self (fun x hx => isDigit_not_space (hallda x hx))
  have hstrb : pyStrip dbs = dbs :=
    pyStrip_eq_self (fun x hx => isDigit_not_space (halldb x hx))
  have hpa : pyFloat (pyStrip das) = some ((natOfDigits das : ℚ)) := by
    rw [hstra, pyFloat, pyFloatLit_digits hna hda, Option.map_some', litVal_nat]
  have hpb : pyFloat (pyStrip dbs) = some ((natOfDigits dbs : ℚ)) := by
    rw [hstrb, pyFloat, pyFloatLit_digits hnb hdb, Option.map_some', litVal_nat]
  simp only [parse_odds_to_decimal, toList_mk, hstrip, hcont, if_true, hsplit,
    intercalate_single, hpa, hpb]

theorem parse_odds_decimal_trace {s : String} {q : ℚ}
    (hns : '/' ∉ pyStrip s.toList)
    (hq : pyFloat ((pyStrip s.toList).map (fun c => if c = ',' then '.' else c)) =
      some q) :
    parse_odds_to_decimal s =
      if q ≤ 1 then Except.error ("Bad decimal odds: " ++ s) else Except.ok q := by
  have hcont := contains_eq_false_of_not_mem hns
  simp only [parse_odds_to_decimal, hcont, Bool.false_eq_true, if_false, hq]

/-- C5: for every input, the odds parser returns `1 + a/b` on a
fractional-form string `a/b` (two digit runs around a slash), failing when
the denominator is zero or when `1 + a/b` is not strictly greater than
`1`; and on any slash-free input it normalizes a decimal comma to a
decimal point, parses the decimal value, and fails unless that value is
strictly greater than `1`. -/
theorem claim_C5_odds_parsing :
    (∀ das dbs : List Char, das ≠ [] → dbs ≠ [] →
      das.all Char.isDigit = true → dbs.all Char.isDigit = true →
      (natOfDigits dbs ≠ 0 → 1 < 1 + (natOfDigits das : ℚ) / (natOfDigits dbs : ℚ) →
        parse_odds_to_decimal (String.mk (das ++ '/' :: dbs)) =
          Except.ok (1 + (natOfDigits das : ℚ) / (natOfDigits dbs : ℚ))) ∧
      (natOfDigits dbs ≠ 0 → 1 + (natOfDigits das : ℚ) / (natOfDigits dbs : ℚ) ≤ 1 →
        parse_odds_to_decimal (String.mk (das ++ '/' :: dbs)) =
          Except.error ("Bad fractional odds: " ++ String.mk (das ++ '/' :: dbs))) ∧
      (natOfDigits dbs = 0 →
        parse_odds_to_decimal (String.mk (das ++ '/' :: dbs)) =
          Except.error ("Bad fractional odds: " ++ String.mk (das ++ '/' :: dbs)))) ∧
    (∀ (s : String) (q : ℚ), '/' ∉ pyStrip s.toList →
      pyFloat ((pyStrip s.toList).map (fun c => if c = ',' then '.' else c)) = some q →
      (1 < q → parse_odds_to_decimal s = Except.ok q) ∧
      (q ≤ 1 → parse_odds_to_decimal s = Except.error ("Bad decimal odds: " ++ s))) := by
  constructor
  · intro das dbs hna hnb hda hdb
    have ht := parse_odds_fractional_trace hna hnb hda hdb
    refine ⟨?_, ?_, ?_⟩
    · intro hb0 hgt
      rw [ht, if_neg (Nat.cast_ne_zero.mpr hb0), if_neg (not_le.mpr hgt)]
    · intro hb0 hle
      rw [ht, if_neg (Nat.cast_ne_zero.mpr hb0), if_pos hle]
    · intro hb0
      rw [ht, if_pos (by rw [hb0]; norm_num)]
  · intro s q hns hq
    have ht := parse_odds_decimal_trace hns hq
    exact ⟨fun hgt => by rw [ht, if_neg (not_le.mpr hgt)],
           fun hle => by rw [ht, if_pos hle]⟩

/-- Witness for C5 at the concrete fractional input `2/1`. -/
theorem claim_C5_odds_parsing_witness :
    parse_odds_to_decimal (String.mk (['2'] ++ '/' :: ['1'])) =
      Except.ok (1 + (natOfDigits ['2'] : ℚ) / (natOfDigits ['1'] : ℚ)) :=
  (claim_C5_odds_parsing.1 ['2'] ['1'] (by decide) (by decide) (by decide)
    (by decide)).1 (by decide)
    (by rw [show natOfDigits ['2'] = 2 from by decide,
            show natOfDigits ['1'] = 1 from by decide]; norm_num)

/-- C7: the date/time parser is a total function — for every input string
and for every behaviour of the external format parser and fallback parser
within their exception contracts, it returns a result (a timestamp or an
explicit unparseable `none`) rather than propagating an exception, and
any returned timestamp carries the reference timezone. -/
theorem claim_C7_datetime_total
    (strptime : String → String → Option PyDatetime)
    (dtparse : String → Except String PyDatetime)
    (astimezoneLondon : PyDatetime → PyDatetime)
    (htz : ∀ d, (astimezoneLondon d).tzinfo = some londonTZ)
    (s : String) :
    ∃ r : Option PyDatetime,
      parse_datetime_london strptime dtparse astimezoneLondon s = Except.ok r ∧
      ∀ d, r = some d → d.tzinfo = some londonTZ := by
  simp only [parse_datetime_london]
  cases hf : strptimeFormats.findSome?
      (fun fmt => strptime (String.mk (pyStrip s.toList)) fmt) with
  | some dt =>
    refine ⟨_, rfl, ?_⟩
    intro d hd
    rw [Option.some.injEq] at hd
    subst hd
    by_cases hn : dt.tzinfo = none
    · rw [if_pos hn]
      simp [tzLocalize]
    · rw [if_neg hn]
      exact htz dt
  | none =>
    cases hp : dtparse (String.mk (pyStrip s.toList)) with
    | error e => exact ⟨none, rfl, fun d hd => by cases hd⟩
    | ok dt =>
      refine ⟨_, rfl, ?_⟩
      intro d hd
      rw [Option.some.injEq] at hd
      subst hd
      by_cases hn : dt.tzinfo = none
      · rw [if_pos hn]
        simp [tzLocalize]
      · rw [if_neg hn]
        exact htz dt

/-- A format parser that never matches, instantiating the external
`strptime` contract at a concrete input. -/
def strptimeNone : String → String → Option PyDatetime := fun _ _ => none

/-- A fallback parser that always raises, as `dateutil` does on garbage
input. -/
def dtparseFail : String → Except String PyDatetime :=
  fun _ => Except.error ("ParserError")

/-- A conversion that stamps the reference timezone onto a datetime. -/
def toLondonStamp : PyDatetime → PyDatetime :=
  fun d => { d with tzinfo := some londonTZ }

/-- Witness for C7 at a concrete malformed input. -/
theorem claim_C7_datetime_total_witness :
    ∃ r : Option PyDatetime,
      parse_datetime_london strptimeNone dtparseFail toLondonStamp ("not a date") =
        Except.ok r ∧ ∀ d, r = some d → d.tzinfo = some londonTZ :=
  claim_C7_datetime_total strptimeNone dtparseFail toLondonStamp
    (fun _ => rfl) ("not a date")

theorem map_id_of {α : Type} {f : α → α} {l : List α} (h : ∀ x ∈ l, f x = x) :
    l.map f = l := by
  induction l with
  | nil => rfl
  | cons x xs ih =>
    rw [List.map_cons, h x (by simp),
        ih (fun y hy => h y (List.mem_cons_of_mem x hy))]

theorem natOfDigits_pair (y1 y2 : Char) :
    natOfDigits [y1, y2] = 10 * digitVal y1 + digitVal y2 := by
  simp [natOfDigits]

theorem pyFloatCore_head_bad {c : Char} {l : List Char} (hd : c.isDigit = false)
    (hdot : c ≠ '.') (neg : Bool) : pyFloatCore neg (c :: l) = none := by
  have hdw : (c :: l).dropWhile Char.isDigit = c :: l :=
    List.dropWhile_cons_of_neg (by simp [hd])
  unfold pyFloatCore
  rw [hdw, if_neg (by simp), List.head?_cons, if_neg (by simp [hdot])]

theorem parse_money_currency_trace {ds cs : List Char} {y1 y2 : Char}
    (hne : ds ≠ []) (hd : ds.all Char.isDigit = true)
    (hcs : ∀ c ∈ cs, c.isDigit = true ∨ c = ',')
    (hfil : cs.filter (fun c => c ≠ ',') = ds)
    (h1 : y1.isDigit = true) (h2 : y2.isDigit = true) :
    parse_money (String.mk ('£' :: cs ++ '.' :: [y1, y2])) =
      Except.ok (litVal ⟨false, natOfDigits ds, natOfDigits [y1, y2], 2⟩) := by
  have hallds := List.all_eq_true.mp hd
  have htail : ∀ x ∈ '.' :: [y1, y2], x = '.' ∨ x.isDigit = true := by
    intro x hx
    rcases List.mem_cons.mp hx with rfl | hx
    · exact Or.inl rfl
    · rcases List.mem_cons.mp hx with rfl | hx
      · exact Or.inr h1
      · rcases List.mem_cons.mp hx with rfl | hx
        · exact Or.inr h2
        · cases hx
  have hmap : (('£' :: cs ++ '.' :: [y1, y2]).map
      (fun c => if c = nbsp then ' ' else c)) = '£' :: cs ++ '.' :: [y1, y2] := by
    apply map_id_of
    intro x hx
    rcases List.mem_cons.mp hx with rfl | hx
    · decide
    · rcases List.mem_append.mp hx with hx | hx
      · rcases hcs x hx with hc | rfl
        · exact if_neg (isDigit_ne hc (by decide))
        · decide
      · rcases htail x hx with rfl | hc
        · decide
        · exact if_neg (isDigit_ne hc (by decide))
  have hstrip : pyStrip ('£' :: cs ++ '.' :: [y1, y2]) = '£' :: cs ++ '.' :: [y1, y2] := by
    apply pyStrip_eq_self
    intro x hx
    rcases List.mem_cons.mp hx with rfl | hx
    · decide
    · rcases List.mem_append.mp hx with hx | hx
      · rcases hcs x hx with hc | rfl
        · exact isDigit_not_space hc
        · decide
      · rcases htail x hx with rfl | hc
        · decide
        · exact isDigit_not_space hc
  have hfiltail : ('.' :: [y1, y2]).filter (fun c => c ≠ ',') = '.' :: [y1, y2] := by
    apply List.filter_eq_self.mpr
    intro a ha
    rcases htail a ha with rfl | hc
    · decide
    · simp only [ne_eq, decide_eq_true_eq]
      exact isDigit_ne (x := ',') hc (by decide)
  have hfilter : ('£' :: cs ++ '.' :: [y1, y2]).filter (fun c => c ≠ ',') =
      '£' :: ds ++ '.' :: [y1, y2] := by
    rw [show ('£' :: cs ++ '.' :: [y1, y2]) = '£' :: (cs ++ '.' :: [y1, y2]) from rfl]
    rw [List.filter_cons_of_pos (by decide), List.filter_append, hfil, hfiltail,
        List.cons_append]
  have hrs : removeSub currencyLit ('£' :: ds ++ '.' :: [y1, y2]) =
      '£' :: ds ++ '.' :: [y1, y2] := by
    have h : ∀ x ∈ ('£' :: ds ++ '.' :: [y1, y2]), x ≠ '¬' := by
      intro x hx
      rcases List.mem_cons.mp hx with rfl | hx
      · decide
      · rcases List.mem_append.mp hx with hx | hx
        · exact isDigit_ne (hallds x hx) (by decide)
        · rcases htail x hx with rfl | hc
          · decide
          · exact isDigit_ne hc (by decide)
    exact removeSub_of_not_mem h
  have hdotds : '.' ∉ '£' :: ds := by
    intro hx
    rcases List.mem_cons.mp hx with he | hx
    · exact absurd he (by decide)
    · exact absurd (hallds _ hx) (by decide)
  have hsplit : splitCh '.' ('£' :: ds ++ '.' :: [y1, y2]) =
      ('£' :: ds) :: [[y1, y2]] := by
    rw [show ('£' :: ds ++ '.' :: [y1, y2]) = ('£' :: ds) ++ '.' :: [y1, y2] from rfl]
    rw [splitCh_append hdotds, splitCh_of_not_mem ?_]
    intro hx
    rcases List.mem_cons.mp hx with he | hx
    · exact absurd h1 (by rw [← he]; decide)
    · rcases List.mem_cons.mp hx with he | hx
      · exact absurd h2 (by rw [← he]; decide)
      · cases hx
  have hpf1 : pyFloat ('£' :: ds ++ '.' :: [y1, y2]) = none := by
    have hstrip2 : pyStrip ('£' :: ds ++ '.' :: [y1, y2]) =
        '£' :: ds ++ '.' :: [y1, y2] := by
      apply pyStrip_eq_self
      intro x hx
      rcases List.mem_cons.mp hx with rfl | hx
      · decide
      · rcases List.mem_append.mp hx with hx | hx
        · exact isDigit_not_space (hallds x hx)
        · rcases htail x hx with rfl | hc
          · decide
          · exact isDigit_not_space hc
    rw [pyFloat, pyFloatLit, hstrip2]
    rw [show ('£' :: ds ++ '.' :: [y1, y2]) = '£' :: (ds ++ '.' :: [y1, y2]) from rfl,
        List.head?_cons, if_neg (by simp), if_neg (by simp),
        pyFloatCore_head_bad (by decide) (by decide)]
    rfl
  have hfall : ('£' :: ds ++ '.' :: [y1, y2]).filter
      (fun c => c.isDigit || c = '.' || c = '-') = ds ++ '.' :: [y1, y2] := by
    rw [show ('£' :: ds ++ '.' :: [y1, y2]) = '£' :: (ds ++ '.' :: [y1, y2]) from rfl]
    rw [List.filter_cons_of_neg (by decide), List.filter_append,
        List.filter_eq_self.mpr ?_, List.filter_eq_self.mpr ?_]
    · intro a ha
      rcases htail a ha with rfl | hc
      · decide
      · simp [hc]
    · intro a ha
      simp [hallds a ha]
  have hfr : ([y1, y2]).all Char.isDigit = true := by simp [h1, h2]
  have hpf2 : pyFloat (ds ++ '.' :: [y1, y2]) =
      some (litVal ⟨false, natOfDigits ds, natOfDigits [y1, y2], 2⟩) := by
    rw [pyFloat, pyFloatLit_digit_frac hne hd hfr, Option.map_some']
    rfl
  have hclean : moneyClean (String.mk ('£' :: cs ++ '.' :: [y1, y2])) =
      '£' :: cs ++ '.' :: [y1, y2] := by
    unfold moneyClean
    rw [toList_mk, hmap, hstrip]
  have hnorm : moneyNorm (String.mk ('£' :: cs ++ '.' :: [y1, y2])) =
      '£' :: ds ++ '.' :: [y1, y2] := by
    unfold moneyNorm
    rw [hclean, hfilter, hrs]
    unfold moneyDots
    rw [hsplit, if_pos (by simp)]
  have hfb : moneyFallback (String.mk ('£' :: cs ++ '.' :: [y1, y2])) =
      ds ++ '.' :: [y1, y2] := by
    unfold moneyFallback
    rw [hnorm, hfall]
  unfold parse_money
  rw [hclean, if_neg (by simp), hnorm, hpf1, hfb,
      if_neg (by simp [hne]), hpf2]

theorem parse_money_eval {x : String} {f : FloatLit} (hne : ¬ moneyClean x = [])
    (hf : pyFloatLit (moneyNorm x) = some f) :
    parse_money x = Except.ok (litVal f) := by
  unfold parse_money
  rw [if_neg hne,
      show pyFloat (moneyNorm x) = some (litVal f) from by
        rw [pyFloat, hf, Option.map_some']]

theorem parse_money_100 : parse_money ("100") = Except.ok 100 := by
  rw [parse_money_eval (by decide)
        (show pyFloatLit (moneyNorm ("100")) = some ⟨false, 100, 0, 0⟩ from by decide),
      litVal_nat]
  norm_num

theorem parse_money_2_5 : parse_money ("2.5") = Except.ok (5 / 2) := by
  rw [parse_money_eval (by decide)
        (show pyFloatLit (moneyNorm ("2.5")) = some ⟨false, 2, 5, 1⟩ from by decide),
      litVal_frac]
  norm_num

theorem parse_money_0_5 : parse_money ("0.5") = Except.ok (1 / 2) := by
  rw [parse_money_eval (by decide)
        (show pyFloatLit (moneyNorm ("0.5")) = some ⟨false, 0, 5, 1⟩ from by decide),
      litVal_frac]
  norm_num

/-- C6: for every money string formed by inserting comma thousands
separators and a leading pound sign into a canonical `X.YY` amount, the
money parser recovers the value `X + YY/100`; and when more than one
dot-like separator remains, all but the last collapse into the integer
part, so `1.234.56` parses to `1234.56`. -/
theorem claim_C6_money_roundtrip :
    (∀ (ds cs : List Char) (y1 y2 : Char), ds ≠ [] → ds.all Char.isDigit = true →
      (∀ c ∈ cs, c.isDigit = true ∨ c = ',') → cs.filter (fun c => c ≠ ',') = ds →
      y1.isDigit = true → y2.isDigit = true →
      parse_money (String.mk ('£' :: cs ++ '.' :: [y1, y2])) =
        Except.ok ((natOfDigits ds : ℚ) +
           ((10 * digitVal y1 + digitVal y2 : ℕ) : ℚ) / 100)) ∧
    parse_money ("1.234.56") = Except.ok ((123456 : ℚ) / 100) := by
  constructor
  · intro ds cs y1 y2 hne hd hcs hfil h1 h2
    rw [parse_money_currency_trace hne hd hcs hfil h1 h2, litVal_frac,
        natOfDigits_pair]
    norm_num
  · rw [parse_money_eval (by decide)
          (show pyFloatLit (moneyNorm ("1.234.56")) = some ⟨false, 1234, 56, 2⟩ from
            by decide),
        litVal_frac]
    norm_num

/-- Witness for C6 on the concrete input `£1,234.56`. -/
theorem claim_C6_money_roundtrip_witness :
    parse_money (String.mk ('£' :: ['1', ',', '2', '3', '4'] ++ '.' :: ['5', '6'])) =
      Except.ok ((natOfDigits ['1', '2', '3', '4'] : ℚ) +
        ((10 * digitVal '5' + digitVal '6' : ℕ) : ℚ) / 100) :=
  claim_C6_money_roundtrip.1 ['1', '2', '3', '4'] ['1', ',', '2', '3', '4'] '5' '6'
    (by decide) (by decide) (by decide) (by decide) (by decide) (by decide)

/-- C2: settlement of a bet whose stored cells parse to decimal odds
above `1` and a stake computes, for `Win`, `return = odds × stake` and
`profit = return − stake`; for `Loss`, `return = 0` and
`profit = −stake`; for `Void`, `return = stake` and `profit = 0`. -/
theorem claim_C2_settlement (oddsCell stakeCell : String) (odds stake : ℚ)
    (ho : parse_money oddsCell = Except.ok odds) (hgt : 1 < odds)
    (hs : parse_money stakeCell = Except.ok stake) :
    settle_bet oddsCell stakeCell ("Win") =
      Except.ok ⟨"Win", odds * stake, odds * stake - stake, stake, odds⟩ ∧
    settle_bet oddsCell stakeCell ("Loss") =
      Except.ok ⟨"Loss", 0, -stake, stake, odds⟩ ∧
    settle_bet oddsCell stakeCell ("Void") =
      Except.ok ⟨"Void", stake, 0, stake, odds⟩ := by
  have hodds : settleOdds oddsCell odds = odds := by
    unfold settleOdds
    rw [if_neg (not_le.mpr hgt)]
  refine ⟨?_, ?_, ?_⟩ <;>
    simp [settle_bet, show pyCapitalize ("Win") = "Win" from by decide,
      show pyCapitalize ("Loss") = "Loss" from by decide,
      show pyCapitalize ("Void") = "Void" from by decide, ho, hs, hodds]

/-- Witness for C2: odds `2.5`, stake `100` give return `250`, profit
`150` on a win, return `0`, profit `-100` on a loss, return `100`,
profit `0` on a void. -/
theorem claim_C2_settlement_witness :
    settle_bet ("2.5") ("100") ("Win") =
      Except.ok ⟨"Win", 250, 150, 100, 5 / 2⟩ ∧
    settle_bet ("2.5") ("100") ("Loss") =
      Except.ok ⟨"Loss", 0, -100, 100, 5 / 2⟩ ∧
    settle_bet ("2.5") ("100") ("Void") =
      Except.ok ⟨"Void", 100, 0, 100, 5 / 2⟩ := by
  have h := claim_C2_settlement ("2.5") ("100") (5 / 2) 100 parse_money_2_5
    (by norm_num) parse_money_100
  refine ⟨?_, ?_, ?_⟩
  · rw [h.1]
    norm_num
  · rw [h.2.1]
  · rw [h.2.2]

/-- C10: when the stored odds cell parses to a value not above `1` and
also fails fractional parsing, settlement still proceeds, computing the
win return from that degenerate value, so the return does not exceed the
stake. -/
theorem claim_C10_degenerate_odds (oddsCell stakeCell : String) (v stake : ℚ)
    (e : String)
    (hv : parse_money oddsCell = Except.ok v) (hle : v ≤ 1)
    (hfrac : parse_odds_to_decimal oddsCell = Except.error e)
    (hs : parse_money stakeCell = Except.ok stake) (hst : 0 ≤ stake) :
    settle_bet oddsCell stakeCell ("Win") =
      Except.ok ⟨"Win", v * stake, v * stake - stake, stake, v⟩ ∧
    v * stake ≤ stake := by
  have hodds : settleOdds oddsCell v = v := by
    unfold settleOdds
    rw [if_pos hle, hfrac]
  constructor
  · simp [settle_bet, show pyCapitalize ("Win") = "Win" from by decide, hv, hs, hodds]
  · calc v * stake ≤ 1 * stake := mul_le_mul_of_nonneg_right hle hst
    _ = stake := one_mul stake

/-- Witness for C10 at odds cell `0.5` and stake cell `100`: the win
return is `50`, half the stake. -/
theorem claim_C10_degenerate_odds_witness :
    settle_bet ("0.5") ("100") ("Win") =
      Except.ok ⟨"Win", (1 / 2 : ℚ) * 100, (1 / 2 : ℚ) * 100 - 100, 100, 1 / 2⟩ ∧
    (1 / 2 : ℚ) * 100 ≤ 100 := by
  have hfrac : parse_odds_to_decimal ("0.5") =
      Except.error ("Bad decimal odds: " ++ "0.5") := by
    have ht := parse_odds_decimal_trace (s := "0.5") (q := litVal ⟨false, 0, 5, 1⟩)
      (by decide)
      (by rw [pyFloat, show pyFloatLit ((pyStrip ("0.5").toList).map
            (fun c => if c = ',' then '.' else c)) = some ⟨false, 0, 5, 1⟩ from by decide,
          Option.map_some'])
    rw [ht, if_pos (by rw [litVal_frac]; norm_num)]
  exact claim_C10_degenerate_odds ("0.5") ("100") (1 / 2) 100
    ("Bad decimal odds: " ++ "0.5") parse_money_0_5 (by norm_num) hfrac
    parse_money_100 (by norm_num)

theorem parse_odds_2_1 :
    parse_odds_to_decimal (String.mk ['2', '.', '1']) = Except.ok (21 / 10) := by
  have hlit : pyFloatLit ((pyStrip (String.mk ['2', '.', '1']).toList).map
      (fun c => if c = ',' then '.' else c)) = some ⟨false, 2, 1, 1⟩ := by decide
  have hq : pyFloat ((pyStrip (String.mk ['2', '.', '1']).toList).map
      (fun c => if c = ',' then '.' else c)) = some (litVal ⟨false, 2, 1, 1⟩) := by
    rw [pyFloat, hlit, Option.map_some']
  rw [parse_odds_decimal_trace (by decide) hq,
      if_neg (by rw [litVal_frac]; norm_num), litVal_frac]
  norm_num

theorem parse_money_50 : parse_money (String.mk ['5', '0']) = Except.ok 50 := by
  rw [parse_money_eval (by decide)
        (show pyFloatLit (moneyNorm (String.mk ['5', '0'])) = some ⟨false, 50, 0, 0⟩
          from by decide),
      litVal_nat]
  norm_num

/-- Counterexample to C1: the five-field line the claim resolves as
pattern B with an event date is instead rejected — the resolver reads its
third field `Bet365` as the odds and fails. -/
theorem claim_C1_counterexample :
    process_bet_line ("Liverpool win / 2.1 / Bet365 / 50 / tomorrow 19:45") =
      Except.error ("Bad decimal odds: Bet365") := by decide

/-- C1 as amended: every line that splits into exactly five non-empty
fields is read as pattern A `Tipster/Selection/Odds/Bookmaker/Stake`
with no pattern-B attempt — field three must parse as odds and field five
as a positive stake, and a trailing event date is never parsed. -/
theorem claim_C1_amended (line : String) (p1 p2 p3 p4 p5 : List Char) (o st : ℚ)
    (hp : ((splitCh '/' line.toList).map pyStrip).filter (fun p => p ≠ []) =
      [p1, p2, p3, p4, p5])
    (ho : parse_odds_to_decimal (String.mk p3) = Except.ok o)
    (hs : parse_money (String.mk p5) = Except.ok st) (hst : 0 < st) :
    process_bet_line line =
      Except.ok (String.mk p1, String.mk p2, o, String.mk p4, st) := by
  unfold process_bet_line
  rw [hp]
  simp only [ho, hs]
  rw [if_neg (not_le.mpr hst)]

/-- Witness for the amended C1 at the five-field line of the spec. -/
theorem claim_C1_amended_witness :
    process_bet_line ("Lewis / Liverpool win / 2.1 / Bet365 / 50") =
      Except.ok (String.mk ['L', 'e', 'w', 'i', 's'],
        String.mk ['L', 'i', 'v', 'e', 'r', 'p', 'o', 'o', 'l', ' ', 'w', 'i', 'n'],
        21 / 10, String.mk ['B', 'e', 't', '3', '6', '5'], 50) :=
  claim_C1_amended ("Lewis / Liverpool win / 2.1 / Bet365 / 50")
    ['L', 'e', 'w', 'i', 's']
    ['L', 'i', 'v', 'e', 'r', 'p', 'o', 'o', 'l', ' ', 'w', 'i', 'n']
    ['2', '.', '1'] ['B', 'e', 't', '3', '6', '5'] ['5', '0'] (21 / 10) 50
    (by decide) parse_odds_2_1 parse_money_50 (by norm_num)

/-- Counterexample to C3: the four-field line the claim accepts with the
default tipster is rejected with the usage message. -/
theorem claim_C3_counterexample :
    process_bet_line ("Liverpool win / 2.1 / Bet365 / 50") =
      Except.error ("Please send: Tipster / Selection / Odds / Bookmaker / Stake") := by
  decide

/-- C3 as amended: every line that splits into exactly four non-empty
fields is rejected with the usage message — this revision has no
four-field pattern and no default-tipster mechanism. -/
theorem claim_C3_amended (line : String) (p1 p2 p3 p4 : List Char)
    (hp : ((splitCh '/' line.toList).map pyStrip).filter (fun p => p ≠ []) =
      [p1, p2, p3, p4]) :
    process_bet_line line =
      Except.error ("Please send: Tipster / Selection / Odds / Bookmaker / Stake") := by
  unfold process_bet_line
  rw [hp]

/-- Witness for the amended C3 at the four-field line of the spec. -/
theorem claim_C3_amended_witness :
    process_bet_line ("Liverpool win / 2.1 / Bet365 / 50") =
      Except.error ("Please send: Tipster / Selection / Odds / Bookmaker / Stake") :=
  claim_C3_amended ("Liverpool win / 2.1 / Bet365 / 50")
    ['L', 'i', 'v', 'e', 'r', 'p', 'o', 'o', 'l', ' ', 'w', 'i', 'n']
    ['2', '.', '1'] ['B', 'e', 't', '3', '6', '5'] ['5', '0'] (by decide)

theorem mem_insertByProfitDesc {x a : TipsterSummary} {l : List TipsterSummary} :
    a ∈ insertByProfitDesc x l ↔ a = x ∨ a ∈ l := by
  induction l with
  | nil => simp [insertByProfitDesc]
  | cons y ys ih =>
    unfold insertByProfitDesc
    by_cases h : x.profit < y.profit
    · rw [if_pos h]
      simp only [List.mem_cons, ih]
      tauto
    · rw [if_neg h]
      exact List.mem_cons

theorem mem_sortByProfitDesc {a : TipsterSummary} {l : List TipsterSummary} :
    a ∈ sortByProfitDesc l ↔ a ∈ l := by
  induction l with
  | nil => simp [sortByProfitDesc]
  | cons x xs ih =>
    unfold sortByProfitDesc
    rw [mem_insertByProfitDesc, ih]
    simp

/-- Example rows for the per-group summary claim: one winning bet
(stake 50, return 100, profit 50) and one void bet (stake 20, stored
return 0) of the same tipster, both inside the window `[0, 10)`. -/
def exampleDf : List BetRow :=
  [⟨1, "Lewis", 50, 100, 50, "Win"⟩,
   ⟨2, "Lewis", 20, 0, 0, "Void"⟩]

theorem exampleDf_records :
    (build_summary exampleDf 0 10).2 =
      [mkTipsterSummary exampleDf 0 10 ("Lewis")] := by
  show summaryRecords exampleDf 0 10 = _
  unfold summaryRecords
  rw [show summaryKeys exampleDf 0 10 = ["Lewis"] from by decide]
  rfl

theorem exampleDf_group :
    summaryGroup exampleDf 0 10 ("Lewis") = exampleDf := by decide

/-- C4: every per-tipster record the summary emits satisfies the group
arithmetic — bets and wins are the group counts, `staked` sums the
stakes, `returned` sums the stored return on a win and the stake on a
void (else `0`), `profit` sums the stored profit except `0` on a void,
and the win rate is wins over bets; on one `Win` bet (stake 50, return
100, profit 50) plus one `Void` bet (stake 20) the record is `bets 2,
wins 1, staked 70, returned 120, profit 50, winPct 1/2`. -/
theorem claim_C4_summary_groups :
    (∀ (df : List BetRow) (s e : ℤ) (rec : TipsterSummary),
      rec ∈ (build_summary df s e).2 →
      ∃ tip : String,
        rec.bets = (summaryGroup df s e tip).length ∧
        rec.wins = ((summaryGroup df s e tip).filter
          (fun r => r.status == "Win")).length ∧
        rec.staked = ((summaryGroup df s e tip).map (fun r => r.stake)).sum ∧
        rec.returned = ((summaryGroup df s e tip).map (fun r =>
          if r.status = "Win" then r.ret
          else if r.status = "Void" then r.stake else 0)).sum ∧
        rec.profit = ((summaryGroup df s e tip).map (fun r =>
          if r.status = "Void" then (0 : ℚ) else r.profit)).sum ∧
        rec.winPct = (if (summaryGroup df s e tip).length = 0 then 0
          else (((summaryGroup df s e tip).filter
              (fun r => r.status == "Win")).length : ℚ) /
            ((summaryGroup df s e tip).length : ℚ))) ∧
    (∃ rec : TipsterSummary, (build_summary exampleDf 0 10).2 = [rec] ∧
      rec.bets = 2 ∧ rec.wins = 1 ∧ rec.staked = 70 ∧ rec.returned = 120 ∧
      rec.profit = 50 ∧ rec.winPct = 1 / 2) := by
  constructor
  · intro df s e rec hmem
    rw [show (build_summary df s e).2 = summaryRecords df s e from rfl] at hmem
    unfold summaryRecords at hmem
    rw [mem_sortByProfitDesc] at hmem
    obtain ⟨tip, _, hrec⟩ := List.mem_map.mp hmem
    exact ⟨tip, by rw [← hrec]; exact ⟨rfl, rfl, rfl, rfl, rfl, rfl⟩⟩
  · refine ⟨mkTipsterSummary exampleDf 0 10 ("Lewis"), exampleDf_records,
      by decide, by decide, ?_, ?_, ?_, ?_⟩
    · show ((summaryGroup exampleDf 0 10 ("Lewis")).map (fun r => r.stake)).sum = 70
      rw [exampleDf_group]
      norm_num [exampleDf]
    · show ((summaryGroup exampleDf 0 10 ("Lewis")).map (fun r =>
        if r.status = "Win" then r.ret
        else if r.status = "Void" then r.stake else 0)).sum = 120
      rw [exampleDf_group]
      norm_num [exampleDf, show ¬("Void" : String) = "Win" from by decide]
    · show ((summaryGroup exampleDf 0 10 ("Lewis")).map (fun r =>
        if r.status = "Void" then (0 : ℚ) else r.profit)).sum = 50
      rw [exampleDf_group]
      norm_num [exampleDf, show ¬("Win" : String) = "Void" from by decide]
    · show (if (summaryGroup exampleDf 0 10 ("Lewis")).length = 0 then 0
        else (((summaryGroup exampleDf 0 10 ("Lewis")).filter
            (fun r => r.status == "Win")).length : ℚ) /
          ((summaryGroup exampleDf 0 10 ("Lewis")).length : ℚ)) = 1 / 2
      rw [show (summaryGroup exampleDf 0 10 ("Lewis")).length = 2 from by decide,
          show ((summaryGroup exampleDf 0 10 ("Lewis")).filter
            (fun r => r.status == "Win")).length = 1 from by decide]
      norm_num

/-- Witness for C4, instantiating the per-record property at the example
dataframe's single record. -/
theorem claim_C4_summary_groups_witness :
    ∃ tip : String,
      (mkTipsterSummary exampleDf 0 10 ("Lewis")).bets =
        (summaryGroup exampleDf 0 10 tip).length ∧
      (mkTipsterSummary exampleDf 0 10 ("Lewis")).wins =
        ((summaryGroup exampleDf 0 10 tip).filter
          (fun r => r.status == "Win")).length ∧
      (mkTipsterSummary exampleDf 0 10 ("Lewis")).staked =
        ((summaryGroup exampleDf 0 10 tip).map (fun r => r.stake)).sum ∧
      (mkTipsterSummary exampleDf 0 10 ("Lewis")).returned =
        ((summaryGroup exampleDf 0 10 tip).map (fun r =>
          if r.status = "Win" then r.ret
          else if r.status = "Void" then r.stake else 0)).sum ∧
      (mkTipsterSummary exampleDf 0 10 ("Lewis")).profit =
        ((summaryGroup exampleDf 0 10 tip).map (fun r =>
          if r.status = "Void" then (0 : ℚ) else r.profit)).sum ∧
      (mkTipsterSummary exampleDf 0 10 ("Lewis")).winPct =
        (if (summaryGroup exampleDf 0 10 tip).length = 0 then 0
          else (((summaryGroup exampleDf 0 10 tip).filter
              (fun r => r.status == "Win")).length : ℚ) /
            ((summaryGroup exampleDf 0 10 tip).length : ℚ)) :=
  claim_C4_summary_groups.1 exampleDf 0 10
    (mkTipsterSummary exampleDf 0 10 ("Lewis"))
    (by rw [exampleDf_records]; exact List.mem_singleton.mpr rfl)

/-- Example rows for the overall pending claim: a pending bet whose
tipster has no settled bets in the window, plus a settled bet of another
tipster. -/
def pendingDf : List BetRow :=
  [⟨1, "A", 10, 0, 0, "Pending"⟩,
   ⟨2, "B", 10, 20, 10, "Win"⟩]

/-- C8: the overall row's pending count is the size of the whole pending
partition in the window, not the sum of the per-tipster pending counts on
the group rows — on the example data the overall count is `1` while the
group rows carry a total pending of `0`, because the pending bet's
tipster has no settled bets and hence no group row. -/
theorem claim_C8_overall_pending :
    (∀ (df : List BetRow) (s e : ℤ),
      (build_summary df s e).1.pending = (summaryPending df s e).length) ∧
    (build_summary pendingDf 0 10).1.pending = 1 ∧
    (((build_summary pendingDf 0 10).2.map (fun r => r.pending)).sum = 0) := by
  refine ⟨fun df s e => rfl, by decide, by decide⟩

theorem parse_money_render (m : ℕ) :
    parse_money (String.mk (renderNat (m / 100) ++
      '.' :: [digitChar (m / 10 % 10), digitChar (m % 10)])) =
      Except.ok ((m : ℚ) / 100) := by
  have hLd := renderNat_all_digit (m / 100)
  have hLne := renderNat_ne_nil (m / 100)
  have hallL := List.all_eq_true.mp hLd
  have h1 := digitChar_isDigit (m / 10 % 10)
  have h2 := digitChar_isDigit (m % 10)
  have hFL : ∀ x ∈ renderNat (m / 100) ++
      '.' :: [digitChar (m / 10 % 10), digitChar (m % 10)],
      x.isDigit = true ∨ x = '.' := by
    intro x hx
    rcases List.mem_append.mp hx with hx | hx
    · exact Or.inl (hallL x hx)
    · rcases List.mem_cons.mp hx with rfl | hx
      · exact Or.inr rfl
      · rcases List.mem_cons.mp hx with rfl | hx
        · exact Or.inl h1
        · rcases List.mem_cons.mp hx with rfl | hx
          · exact Or.inl h2
          · cases hx
  have hmap : ((renderNat (m / 100) ++
      '.' :: [digitChar (m / 10 % 10), digitChar (m % 10)]).map
      (fun c => if c = nbsp then ' ' else c)) =
      renderNat (m / 100) ++ '.' :: [digitChar (m / 10 % 10), digitChar (m % 10)] := by
    apply map_id_of
    intro x hx
    rcases hFL x hx with hc | rfl
    · exact if_neg (isDigit_ne hc (by decide))
    · decide
  have hstrip : pyStrip (renderNat (m / 100) ++
      '.' :: [digitChar (m / 10 % 10), digitChar (m % 10)]) =
      renderNat (m / 100) ++ '.' :: [digitChar (m / 10 % 10), digitChar (m % 10)] := by
    apply pyStrip_eq_self
    intro x hx
    rcases hFL x hx with hc | rfl
    · exact isDigit_not_space hc
    · decide
  have hclean : moneyClean (String.mk (renderNat (m / 100) ++
      '.' :: [digitChar (m / 10 % 10), digitChar (m % 10)])) =
      renderNat (m / 100) ++ '.' :: [digitChar (m / 10 % 10), digitChar (m % 10)] := by
    unfold moneyClean
    rw [toList_mk, hmap, hstrip]
  have hcleanne : ¬ moneyClean (String.mk (renderNat (m / 100) ++
      '.' :: [digitChar (m / 10 % 10), digitChar (m % 10)])) = [] := by
    rw [hclean]
    intro h
    exact hLne (List.append_eq_nil.mp h).1
  have hfil : (renderNat (m / 100) ++
      '.' :: [digitChar (m / 10 % 10), digitChar (m % 10)]).filter
      (fun c => c ≠ ',') =
      renderNat (m / 100) ++ '.' :: [digitChar (m / 10 % 10), digitChar (m % 10)] := by
    apply List.filter_eq_self.mpr
    intro a ha
    rcases hFL a ha with hc | rfl
    · simp only [ne_eq, decide_eq_true_eq]
      exact isDigit_ne (x := ',') hc (by decide)
    · decide
  have hrs : removeSub currencyLit (renderNat (m / 100) ++
      '.' :: [digitChar (m / 10 % 10), digitChar (m % 10)]) =
      renderNat (m / 100) ++ '.' :: [digitChar (m / 10 % 10), digitChar (m % 10)] := by
    have h : ∀ x ∈ renderNat (m / 100) ++
        '.' :: [digitChar (m / 10 % 10), digitChar (m % 10)], x ≠ '¬' := by
      intro x hx
      rcases hFL x hx with hc | rfl
      · exact isDigit_ne hc (by decide)
      · decide
    exact removeSub_of_not_mem h
  have hdotL : '.' ∉ renderNat (m / 100) := by
    intro hx
    exact absurd (hallL _ hx) (by decide)
  have hdotTail : '.' ∉ [digitChar (m / 10 % 10), digitChar (m % 10)] := by
    intro hx
    rcases List.mem_cons.mp hx with he | hx
    · exact absurd h1 (by rw [← he]; decide)
    · rcases List.mem_cons.mp hx with he | hx
      · exact absurd h2 (by rw [← he]; decide)
      · cases hx
  have hsplit : splitCh '.' (renderNat (m / 100) ++
      '.' :: [digitChar (m / 10 % 10), digitChar (m % 10)]) =
      [renderNat (m / 100), [digitChar (m / 10 % 10), digitChar (m % 10)]] := by
    rw [splitCh_append hdotL, splitCh_of_not_mem hdotTail]
  have hnorm : moneyNorm (String.mk (renderNat (m / 100) ++
      '.' :: [digitChar (m / 10 % 10), digitChar (m % 10)])) =
      renderNat (m / 100) ++ '.' :: [digitChar (m / 10 % 10), digitChar (m % 10)] := by
    unfold moneyNorm
    rw [hclean, hfil, hrs]
    unfold moneyDots
    rw [hsplit, if_pos (by simp)]
  have hfr : ([digitChar (m / 10 % 10), digitChar (m % 10)]).all Char.isDigit = true := by
    simp [h1, h2]
  have hplit : pyFloatLit (moneyNorm (String.mk (renderNat (m / 100) ++
      '.' :: [digitChar (m / 10 % 10), digitChar (m % 10)]))) =
      some ⟨false, natOfDigits (renderNat (m / 100)),
        natOfDigits [digitChar (m / 10 % 10), digitChar (m % 10)], 2⟩ := by
    rw [hnorm, pyFloatLit_digit_frac hLne hLd hfr]
    rfl
  rw [parse_money_eval hcleanne hplit, litVal_frac, natOfDigits_renderNat,
      natOfDigits_pair,
      digitVal_digitChar (m / 10 % 10) (Nat.mod_lt _ (by norm_num)),
      digitVal_digitChar (m % 10) (Nat.mod_lt _ (by norm_num)),
      show 10 * (m / 10 % 10) + m % 10 = m % 100 from by omega]
  have : ((m / 100 : ℕ) : ℚ) + ((m % 100 : ℕ) : ℚ) / (10 : ℚ) ^ 2 = (m : ℚ) / 100 := by
    rw [show ((10 : ℚ) ^ 2) = 100 from by norm_num,
        eq_div_iff (show (100 : ℚ) ≠ 0 from by norm_num), add_mul,
        div_mul_cancel₀ _ (show (100 : ℚ) ≠ 0 from by norm_num)]
    exact_mod_cast (show (m / 100) * 100 + m % 100 = m from by omega)
  rw [this]

/-- C9: a newly appended row stores the parsed decimal odds formatted to
exactly two decimal places in the odds cell, status `Pending`, and empty
return and profit cells; a later win settlement therefore computes return
and profit from the two-decimal rounded stored odds rather than the
originally parsed value. -/
theorem claim_C9_rounded_odds
    (betId datePlaced tipster selection bookmaker stakeCell : String)
    (q st stq : ℚ)
    (hq1 : 1 < (((rhe (q * 100)).toNat : ℚ) / 100))
    (hs : parse_money stakeCell = Except.ok stq) :
    (append_bet_row betId datePlaced tipster selection q bookmaker st none).get? 5 =
      some (Cell.str (String.mk (fmt2 q))) ∧
    (append_bet_row betId datePlaced tipster selection q bookmaker st none).get? 8 =
      some (Cell.str ("Pending")) ∧
    (append_bet_row betId datePlaced tipster selection q bookmaker st none).get? 9 =
      some (Cell.str ("")) ∧
    (append_bet_row betId datePlaced tipster selection q bookmaker st none).get? 10 =
      some (Cell.str ("")) ∧
    settle_bet (String.mk (fmt2 q)) stakeCell ("Win") =
      Except.ok ⟨"Win", ((rhe (q * 100)).toNat : ℚ) / 100 * stq,
        ((rhe (q * 100)).toNat : ℚ) / 100 * stq - stq, stq,
        ((rhe (q * 100)).toNat : ℚ) / 100⟩ := by
  have hpm : parse_money (String.mk (fmt2 q)) =
      Except.ok (((rhe (q * 100)).toNat : ℚ) / 100) := by
    unfold fmt2
    exact parse_money_render ((rhe (q * 100)).toNat)
  have hodds : settleOdds (String.mk (fmt2 q)) (((rhe (q * 100)).toNat : ℚ) / 100) =
      ((rhe (q * 100)).toNat : ℚ) / 100 := by
    unfold settleOdds
    rw [if_neg (not_le.mpr hq1)]
  refine ⟨rfl, rfl, rfl, rfl, ?_⟩
  simp [settle_bet, show pyCapitalize ("Win") = "Win" from by decide, hpm, hs, hodds]

theorem rhe_2345 : rhe ((469 / 200 : ℚ) * 100) = 234 := by
  rw [show ((469 / 200 : ℚ) * 100) = 469 / 2 from by norm_num]
  have hf : ⌊(469 / 2 : ℚ)⌋ = 234 :=
    Int.floor_eq_iff.mpr ⟨by norm_num, by norm_num⟩
  unfold rhe
  rw [hf, if_neg (by push_cast; norm_num), if_neg (by push_cast; norm_num),
      if_pos (by decide)]

/-- Witness for C9 at parsed odds `2.345` (stored as `2.34`) and stake
cell `100`. -/
theorem claim_C9_rounded_odds_witness :
    (append_bet_row ("AB12CD34") ("2025-01-01 10:00:00") ("Lewis") ("ACCA")
      (469 / 200) ("Bet365") 100 none).get? 5 =
      some (Cell.str (String.mk (fmt2 (469 / 200)))) ∧
    (append_bet_row ("AB12CD34") ("2025-01-01 10:00:00") ("Lewis") ("ACCA")
      (469 / 200) ("Bet365") 100 none).get? 8 = some (Cell.str ("Pending")) ∧
    (append_bet_row ("AB12CD34") ("2025-01-01 10:00:00") ("Lewis") ("ACCA")
      (469 / 200) ("Bet365") 100 none).get? 9 = some (Cell.str ("")) ∧
    (append_bet_row ("AB12CD34") ("2025-01-01 10:00:00") ("Lewis") ("ACCA")
      (469 / 200) ("Bet365") 100 none).get? 10 = some (Cell.str ("")) ∧
    settle_bet (String.mk (fmt2 (469 / 200))) ("100") ("Win") =
      Except.ok ⟨"Win", ((rhe ((469 / 200 : ℚ) * 100)).toNat : ℚ) / 100 * 100,
        ((rhe ((469 / 200 : ℚ) * 100)).toNat : ℚ) / 100 * 100 - 100, 100,
        ((rhe ((469 / 200 : ℚ) * 100)).toNat : ℚ) / 100⟩ :=
  claim_C9_rounded_odds ("AB12CD34") ("2025-01-01 10:00:00") ("Lewis") ("ACCA")
    ("Bet365") ("100") (469 / 200) 100 100
    (by rw [rhe_2345, show (Int.toNat 234) = 234 from rfl]; norm_num) parse_money_100

end BetBot
